import Mathlib

/-!
Verification of the control core of the `GAME` repository
(state stack, event bus, simulated clock) against its
natural-language specification.

All definitions are shallow embeddings of the Python source under
`src/game/engine/`.  Python lists become `List`, dictionaries become
association lists, object mutation becomes explicit state passing,
and the one `float` comparison that matters is carried out over `ℚ`
(the constants `0.001`, `0.01` and the integers involved are exact
in both representations).
-/

namespace Game

/-! ## Time: `src/game/engine/time_manager.py` -/

/-- `GameTime` dataclass (time_manager.py, lines 45-113).
Fields are Python ints; valid times keep them in the documented
ranges (year ≥ 1, month 1-12, day 1-30, hour 0-23, minute 0-59). -/
structure GameTime where
  year : Nat
  month : Nat
  day : Nat
  hour : Nat
  minute : Nat
  deriving DecidableEq, Repr

/-- Python dataclass defaults: `GameTime()` = year 1, month 1, day 1,
hour 6, minute 0. -/
instance : Inhabited GameTime := ⟨⟨1, 1, 1, 6, 0⟩⟩

/-- `GameTime.total_minutes` (lines 54-62):
`(year-1)*365*24*60 + (month-1)*30*24*60 + (day-1)*24*60 + hour*60 + minute`. -/
def GameTime.total_minutes (t : GameTime) : Nat :=
  (t.year - 1) * 365 * 24 * 60 +
  (t.month - 1) * 30 * 24 * 60 +
  (t.day - 1) * 24 * 60 +
  t.hour * 60 +
  t.minute

/-- `GameTime.copy` (lines 105-107): a fresh object with the same fields. -/
def GameTime.copy (t : GameTime) : GameTime :=
  ⟨t.year, t.month, t.day, t.hour, t.minute⟩

/-- Whether a `GameTime` lies in the documented field ranges. -/
def GameTime.ValidRange (t : GameTime) : Prop :=
  1 ≤ t.year ∧ 1 ≤ t.month ∧ t.month ≤ 12 ∧ 1 ≤ t.day ∧ t.day ≤ 30 ∧
    t.hour ≤ 23 ∧ t.minute ≤ 59

instance (t : GameTime) : Decidable t.ValidRange := by
  unfold GameTime.ValidRange; infer_instance

/-- One iteration of the minute-overflow `while` loop in
`TimeManager._advance_time` (time_manager.py, lines 222-239):
subtract 60 minutes, bump the hour, and cascade the hour/day/month
carries that the loop body checks. -/
def carryStep (t : GameTime) : GameTime :=
  let t1 : GameTime := { t with minute := t.minute - 60, hour := t.hour + 1 }
  if t1.hour ≥ 24 then
    let t2 : GameTime := { t1 with hour := 0, day := t1.day + 1 }
    if t2.day > 30 then
      let t3 : GameTime := { t2 with day := 1, month := t2.month + 1 }
      if t3.month > 12 then { t3 with month := 1, year := t3.year + 1 }
      else t3
    else t2
  else t1

/-- The `while self.current_time.minute >= 60` loop of `_advance_time`.
Each iteration removes 60 minutes, so the minute count itself bounds
the number of iterations; the first argument is that bound. -/
def carryLoopF : Nat → GameTime → GameTime
  | 0, t => t
  | fuel + 1, t => if t.minute ≥ 60 then carryLoopF fuel (carryStep t) else t

/-- `TimeManager._advance_time` restricted to its effect on
`current_time` (lines 214-240): add the minutes, then run the
overflow loop. -/
def advanceTime (t : GameTime) (minutes : Nat) : GameTime :=
  let t' : GameTime := { t with minute := t.minute + minutes }
  carryLoopF t'.minute t'

/-- The loop exits as soon as the minute count is under 60. -/
theorem carryLoopF_of_lt (fuel : Nat) (t : GameTime) (h : t.minute < 60) :
    carryLoopF fuel t = t := by
  cases fuel with
  | zero => rfl
  | succ n => simp [carryLoopF, Nat.not_le_of_lt h]

theorem carryLoopF_step (fuel : Nat) (t : GameTime) (h : 60 ≤ t.minute) :
    carryLoopF (fuel + 1) t = carryLoopF fuel (carryStep t) := by
  simp [carryLoopF, h]

/-- Closed form of a one-minute advance on an in-range time: the overflow
loop runs at most once, cascading the carries exactly as the claim lists
them. -/
theorem advanceTime_one_eq (t : GameTime) (h : t.ValidRange) :
    advanceTime t 1 =
      if t.minute < 59 then { t with minute := t.minute + 1 }
      else if t.hour < 23 then { t with minute := 0, hour := t.hour + 1 }
      else if t.day < 30 then { t with minute := 0, hour := 0, day := t.day + 1 }
      else if t.month < 12 then
        { t with minute := 0, hour := 0, day := 1, month := t.month + 1 }
      else { t with minute := 0, hour := 0, day := 1, month := 1, year := t.year + 1 } := by
  obtain ⟨hy, hm1, hm2, hd1, hd2, hh, hmin⟩ := h
  by_cases hlt : t.minute < 59
  · have : t.minute + 1 < 60 := by omega
    rw [advanceTime, carryLoopF_of_lt _ _ this]
    simp [hlt]
  · have hmin59 : t.minute = 59 := by omega
    have h60 : t.minute + 1 = 60 := by omega
    rw [advanceTime]
    rw [show ({ t with minute := t.minute + 1 } : GameTime).minute = 60 from h60]
    rw [h60, show (60 : Nat) = 59 + 1 from rfl, carryLoopF_step _ _ (by simp)]
    by_cases hh23 : t.hour < 23
    · have hs : carryStep { t with minute := 60 } =
          { t with minute := 0, hour := t.hour + 1 } := by
        rw [carryStep]; simp; omega
      rw [hs, carryLoopF_of_lt _ _ (by simp)]
      simp [hlt, hh23]
    · have hhour : t.hour = 23 := by omega
      by_cases hd30 : t.day < 30
      · have hs : carryStep { t with minute := 60 } =
            { t with minute := 0, hour := 0, day := t.day + 1 } := by
          rw [carryStep]; simp [hhour]; omega
        rw [hs, carryLoopF_of_lt _ _ (by simp)]
        simp [hlt, hh23, hd30]
      · have hday : t.day = 30 := by omega
        by_cases hm12 : t.month < 12
        · have hs : carryStep { t with minute := 60 } =
              { t with minute := 0, hour := 0, day := 1, month := t.month + 1 } := by
            rw [carryStep]; simp [hhour, hday]; omega
          rw [hs, carryLoopF_of_lt _ _ (by simp)]
          simp [hlt, hh23, hd30, hm12]
        · have hmon : t.month = 12 := by omega
          have hs : carryStep { t with minute := 60 } =
              { t with minute := 0, hour := 0, day := 1, month := 1, year := t.year + 1 } := by
            rw [carryStep]; simp [hhour, hday, hmon]
          rw [hs, carryLoopF_of_lt _ _ (by simp)]
          simp [hlt, hh23, hd30, hm12]

/-- C6: advancing an in-range `GameTime` by one minute strictly increases
`total_minutes` and carries at every unit boundary (minute 59→0 rolls the
hour, hour 23→0 rolls the day, day 30→1 rolls the month, month 12→1 rolls
the year), and advancing `GameTime(1, 2, 30, 23, 59)` by 2 minutes yields
`GameTime(1, 3, 1, 0, 1)`. -/
theorem claimC6_advance_monotone_carries (t : GameTime) (h : t.ValidRange) :
    t.total_minutes < (advanceTime t 1).total_minutes ∧
    (t.minute < 59 → advanceTime t 1 = { t with minute := t.minute + 1 }) ∧
    (t.minute = 59 → t.hour < 23 →
      advanceTime t 1 = { t with minute := 0, hour := t.hour + 1 }) ∧
    (t.minute = 59 → t.hour = 23 → t.day < 30 →
      advanceTime t 1 = { t with minute := 0, hour := 0, day := t.day + 1 }) ∧
    (t.minute = 59 → t.hour = 23 → t.day = 30 → t.month < 12 →
      advanceTime t 1 =
        { t with minute := 0, hour := 0, day := 1, month := t.month + 1 }) ∧
    (t.minute = 59 → t.hour = 23 → t.day = 30 → t.month = 12 →
      advanceTime t 1 =
        { t with minute := 0, hour := 0, day := 1, month := 1, year := t.year + 1 }) ∧
    advanceTime ⟨1, 2, 30, 23, 59⟩ 2 = ⟨1, 3, 1, 0, 1⟩ := by
  have heq := advanceTime_one_eq t h
  obtain ⟨hy, hm1, hm2, hd1, hd2, hh, hmin⟩ := h
  refine ⟨?_, ?_, ?_, ?_, ?_, ?_, by decide⟩
  · rw [heq]
    split_ifs with h1 h2 h3 h4 <;> simp [GameTime.total_minutes] <;> omega
  · intro h1; rw [heq]; simp [h1]
  · intro h1 h2; rw [heq]; simp [h1, h2]
  · intro h1 h2 h3; rw [heq]; simp [h1, h2, h3]
  · intro h1 h2 h3 h4; rw [heq]; simp [h1, h2, h3, h4]
  · intro h1 h2 h3 h4; rw [heq]; simp [h1, h2, h3, h4]

/-- Witness for C6 at the concrete time 06:00, day 1, month 1, year 1. -/
theorem claimC6_advance_monotone_carries_witness :
    GameTime.ValidRange ⟨1, 1, 1, 6, 0⟩ ∧
      GameTime.total_minutes ⟨1, 1, 1, 6, 0⟩ <
        (advanceTime ⟨1, 1, 1, 6, 0⟩ 1).total_minutes :=
  ⟨by decide, (claimC6_advance_monotone_carries ⟨1, 1, 1, 6, 0⟩ (by decide)).1⟩

/-! ## Weather: `TimeManager._update_weather` (time_manager.py, lines 297-308) -/

/-- `self.weather_change_probability = 0.001` (line 182), exact in `ℚ`. -/
def weather_change_probability : ℚ := 1 / 1000

/-- The re-roll decision of `TimeManager._update_weather`: update
`duration_remaining` (only decremented while still positive) and decide
whether `_change_weather` is invoked.  The decision in the source is
`duration_remaining <= 0 or change_chance > 0.01` with
`change_chance = self.weather_change_probability * minutes_passed`;
no random number is drawn at this point (`_change_weather`, once
invoked, is what draws random values). -/
def updateWeatherStep (duration : Int) (minutes_passed : Nat) : Int × Bool :=
  let d : Int := if duration > 0 then duration - minutes_passed else duration
  let change_chance : ℚ := weather_change_probability * minutes_passed
  (d, decide (d ≤ 0) || decide (change_chance > 1 / 100))

/-- C4 (evaluating the code at the divergence): when `duration_remaining`
is still positive after the decrement, whether `_update_weather` invokes a
re-roll is a *deterministic* function of the batch size, namely `10 < m`;
no random draw is involved in the decision. -/
theorem claimC4_weather_reroll_threshold (d : Int) (m : Nat) (h : 0 < d) :
    updateWeatherStep d m =
      (d - m, decide (d - (m : Int) ≤ 0) || decide (10 < m)) := by
  have hq : ((1 : ℚ) / 1000 * (m : ℚ) > 1 / 100) ↔ 10 < m := by
    rw [gt_iff_lt, show (1 : ℚ) / 1000 * (m : ℚ) = (m : ℚ) / 1000 by ring,
      div_lt_div_iff₀ (by norm_num) (by norm_num)]
    constructor
    · intro hlt
      have h10 : (10 : ℚ) < (m : ℚ) := by linarith
      exact_mod_cast h10
    · intro hlt
      have h10 : (10 : ℚ) < (m : ℚ) := by exact_mod_cast hlt
      linarith
  have hd : (if d > 0 then d - (m : Int) else d) = d - m := if_pos h
  have h2 : decide ((1 : ℚ) / 1000 * (m : ℚ) > 1 / 100) = decide (10 < m) :=
    decide_eq_decide.mpr hq
  simp only [updateWeatherStep, weather_change_probability, hd, h2]

/-- Witness for C4: with 100 minutes of weather remaining, a 20-minute
batch always re-rolls (duration still positive) and a 5-minute batch never
does — the outcome is fixed by `m` alone. -/
theorem claimC4_weather_reroll_threshold_witness :
    (0 : Int) < 100 ∧
      updateWeatherStep 100 20 =
        (80, decide ((100 : Int) - 20 ≤ 0) || decide (10 < 20)) :=
  ⟨by decide, claimC4_weather_reroll_threshold 100 20 (by decide)⟩

/-! ## Scheduled callbacks: `TemporalEvent` and
`TimeManager._process_temporal_events` (time_manager.py, lines 127-154
and 362-377) -/

/-- `TemporalEvent` restricted to the fields the scheduler reads.
`next_execution` counts total minutes, with `none` standing for
`float('inf')`; the callback body is external gameplay code, modelled
only by whether it raises when invoked. -/
structure TemporalEvent where
  next_execution : Option Nat
  repeating : Bool
  repeat_interval : Nat
  callbackRaises : Bool
  deriving DecidableEq, Repr

/-- `TemporalEvent.should_execute` (lines 140-143):
`current_minutes >= next_execution`; always false against `inf`. -/
def should_execute (now : Nat) (e : TemporalEvent) : Bool :=
  match e.next_execution with
  | none => false
  | some n => decide (n ≤ now)

/-- `TemporalEvent.execute` (lines 145-154): run the callback; if it does
not raise, reset `next_execution` (to `now + interval` for a repeating
event with positive interval, to `inf` otherwise).  If the callback
raises, the exception is caught and `next_execution` is left unchanged. -/
def executeEvent (now : Nat) (e : TemporalEvent) : TemporalEvent :=
  if e.callbackRaises then e
  else if e.repeating && decide (0 < e.repeat_interval) then
    { e with next_execution := some (now + e.repeat_interval) }
  else { e with next_execution := none }

/-- The per-event pass of `_process_temporal_events`: each pending event
is executed when due, and flagged for removal when
`not event.repeating or event.next_execution == float('inf')` holds
afterwards. -/
def temporalPass (now : Nat) : List TemporalEvent → List (TemporalEvent × Bool)
  | [] => []
  | e :: rest =>
    if should_execute now e then
      let e2 := executeEvent now e
      (e2, !e2.repeating || decide (e2.next_execution = none)) :: temporalPass now rest
    else (e, false) :: temporalPass now rest

/-- The pending list after `_process_temporal_events`: flagged events are
removed (`self.temporal_events.remove(event)`). -/
def pendingAfter (now : Nat) (pending : List TemporalEvent) : List TemporalEvent :=
  (temporalPass now pending).filterMap fun p => if p.2 then none else some p.1

/-- The events appended to `self.completed_events` by one
`_process_temporal_events` call, in order. -/
def firedList (now : Nat) (pending : List TemporalEvent) : List TemporalEvent :=
  (temporalPass now pending).filterMap fun p => if p.2 then some p.1 else none

/-- `TimeManager._process_temporal_events` (lines 362-377) as a function
of the pending and completed lists. -/
def processTemporalEvents (now : Nat) (pending completed : List TemporalEvent) :
    List TemporalEvent × List TemporalEvent :=
  (pendingAfter now pending, completed ++ firedList now pending)

theorem temporalPass_append (now : Nat) (l1 l2 : List TemporalEvent) :
    temporalPass now (l1 ++ l2) = temporalPass now l1 ++ temporalPass now l2 := by
  induction l1 with
  | nil => rfl
  | cons e rest ih => simp only [List.cons_append, temporalPass, ih]; split <;> simp [ih]

/-- C9 (amended): when a due, non-repeating scheduled callback whose body
does not raise fires, its `next_execution` becomes `inf` (it can never fire
again), it is removed from the pending list, and it is appended to the
completed list — but the completed list has *no* capacity: it grows by
exactly the fired events on every call, whatever its current length. -/
theorem claimC9_nonrepeating_moved_to_completed (now : Nat) (e : TemporalEvent)
    (p1 p2 completed : List TemporalEvent)
    (hrep : e.repeating = false) (hr : e.callbackRaises = false)
    (hdue : should_execute now e = true) :
    (executeEvent now e).next_execution = none ∧
    (∀ m, should_execute m (executeEvent now e) = false) ∧
    pendingAfter now (p1 ++ e :: p2) =
      pendingAfter now p1 ++ pendingAfter now p2 ∧
    (processTemporalEvents now (p1 ++ e :: p2) completed).2 =
      completed ++ firedList now p1 ++ executeEvent now e :: firedList now p2 ∧
    ((processTemporalEvents now (p1 ++ e :: p2) completed).2).length =
      completed.length + ((firedList now p1).length + 1 + (firedList now p2).length) := by
  have he2 : executeEvent now e = { e with next_execution := none } := by
    simp [executeEvent, hr, hrep]
  have hpass : temporalPass now (p1 ++ e :: p2) =
      temporalPass now p1 ++ (executeEvent now e, true) :: temporalPass now p2 := by
    rw [temporalPass_append]
    simp [temporalPass, hdue, he2, hrep]
  refine ⟨by rw [he2], fun m => by rw [he2]; simp [should_execute], ?_, ?_, ?_⟩
  · rw [pendingAfter, hpass]
    simp [List.filterMap_append, pendingAfter]
  · rw [processTemporalEvents, firedList, hpass]
    simp [List.filterMap_append, firedList, List.append_assoc]
  · rw [processTemporalEvents, firedList, hpass]
    simp [List.filterMap_append, firedList]
    omega

/-- Witness for C9 (amended) with one due non-repeating event and empty
surrounding lists. -/
theorem claimC9_nonrepeating_moved_to_completed_witness :
    (TemporalEvent.repeating ⟨some 0, false, 0, false⟩ = false ∧
      TemporalEvent.callbackRaises ⟨some 0, false, 0, false⟩ = false ∧
      should_execute 5 ⟨some 0, false, 0, false⟩ = true) ∧
    (executeEvent 5 ⟨some 0, false, 0, false⟩).next_execution = none :=
  ⟨⟨rfl, rfl, by decide⟩,
    (claimC9_nonrepeating_moved_to_completed 5 ⟨some 0, false, 0, false⟩ [] [] []
      rfl rfl (by decide)).1⟩

/-- C9 counterexample to the boundedness conjunct: with 1000 events
already on the completed list (1000 is the only informational-list
capacity appearing anywhere in the repository) and one due non-repeating
event pending, `_process_temporal_events` grows the completed list to
1001 entries — nothing ever evicts or truncates it. -/
theorem claimC9_completed_unbounded_counterexample :
    ((processTemporalEvents 5 [⟨some 3, false, 0, false⟩]
        (List.replicate 1000 ⟨none, false, 0, false⟩)).2).length = 1001 := by
  rw [processTemporalEvents]
  rw [show firedList 5 [⟨some 3, false, 0, false⟩] =
    [⟨none, false, 0, false⟩] from by decide]
  rw [List.length_append, List.length_replicate]
  rfl

/-! ## `TimeManager.get_time` (time_manager.py, lines 449-451) -/

/-- The heap of `GameTime` objects visible to `get_time`: `current_time`
is held by reference into `objs`, and `GameTime.copy` allocates a fresh
object.  In-place mutation of one object must not be visible through
another reference. -/
structure TimeHeap where
  objs : List GameTime
  currentRef : Nat
  deriving Repr

/-- Read the object behind a reference. -/
def TimeHeap.readRef (h : TimeHeap) (r : Nat) : GameTime :=
  h.objs.getD r default

/-- `TimeManager.get_time`: `return self.current_time.copy()` — allocate
a fresh object holding a copy of `current_time` and hand back a reference
to it. -/
def getTime (h : TimeHeap) : TimeHeap × Nat :=
  ({ h with objs := h.objs ++ [(h.readRef h.currentRef).copy] }, h.objs.length)

/-- An arbitrary in-place mutation of the object behind reference `r`
(e.g. a caller assigning to the fields of the returned `GameTime`). -/
def TimeHeap.mutate (h : TimeHeap) (r : Nat) (f : GameTime → GameTime) : TimeHeap :=
  { h with objs := h.objs.set r (f (h.readRef r)) }

/-- C10: `get_time` returns a copy — mutating the returned object in any
way leaves the manager's internal `current_time` unchanged, and a
subsequent `get_time` still returns the pre-mutation time. -/
theorem getD_set_ne {α : Type} (l : List α) (n m : Nat) (a d : α) (h : n ≠ m) :
    (l.set n a).getD m d = l.getD m d := by
  simp [List.getD, List.getElem?_set_ne h]

/-- A reference just returned by `getTime` reads back as a copy of the
current time of the heap it was drawn from. -/
theorem getTime_reads_fresh_copy (g : TimeHeap) :
    (getTime g).1.readRef (getTime g).2 = (g.readRef g.currentRef).copy := by
  simp only [getTime, TimeHeap.readRef]
  rw [List.getD_append_right _ _ _ _ (le_refl _), Nat.sub_self]
  rfl

/-- C10: `get_time` returns a copy — mutating the returned object in any
way leaves the manager's internal `current_time` unchanged, and a
subsequent `get_time` still returns the pre-mutation time. -/
theorem claimC10_getTime_returns_copy (h : TimeHeap) (f : GameTime → GameTime)
    (hr : h.currentRef < h.objs.length) :
    (((getTime h).1.mutate (getTime h).2 f).readRef h.currentRef =
        h.readRef h.currentRef) ∧
    ((getTime (((getTime h).1.mutate (getTime h).2 f))).1.readRef
        (getTime (((getTime h).1.mutate (getTime h).2 f))).2 =
      (h.readRef h.currentRef).copy) := by
  have hread : ((getTime h).1.mutate (getTime h).2 f).readRef h.currentRef =
      h.readRef h.currentRef := by
    simp only [getTime, TimeHeap.mutate, TimeHeap.readRef]
    rw [getD_set_ne _ _ _ _ _ (by omega : h.objs.length ≠ h.currentRef)]
    exact List.getD_append _ _ _ _ hr
  refine ⟨hread, ?_⟩
  rw [getTime_reads_fresh_copy]
  rw [show ((getTime h).1.mutate (getTime h).2 f).currentRef = h.currentRef from rfl]
  exact congrArg GameTime.copy hread

/-! ## Event bus: `src/game/engine/event_manager.py` -/

/-- `EventType` enumeration (event_manager.py, lines 14-64). -/
inductive EventType where
  | PLAYER_LEVEL_UP | PLAYER_DIED | PLAYER_MOVED
  | PLAYER_HEALTH_CHANGED | PLAYER_MANA_CHANGED
  | COMBAT_STARTED | COMBAT_ENDED | ATTACK_PERFORMED | DAMAGE_DEALT
  | SKILL_USED | STATUS_EFFECT_APPLIED | STATUS_EFFECT_REMOVED
  | QUEST_STARTED | QUEST_COMPLETED | QUEST_FAILED | QUEST_OBJECTIVE_UPDATED
  | DAY_NIGHT_CHANGED | WEATHER_CHANGED | LOCATION_ENTERED | LOCATION_EXITED
  | NPC_INTERACTION
  | ITEM_ACQUIRED | ITEM_USED | ITEM_EQUIPPED | ITEM_UNEQUIPPED
  | ITEM_SOLD | ITEM_CRAFTED
  | MENU_OPENED | MENU_CLOSED | DIALOGUE_STARTED | DIALOGUE_ENDED
  | GAME_PAUSED | GAME_RESUMED | SAVE_GAME | LOAD_GAME | SETTINGS_CHANGED
  deriving DecidableEq, Repr

/-- `GameEvent` (lines 67-77).  The bus never inspects `data`, `timestamp`
or `source`; they are collapsed into an inert `payload` marker that only
serves to tell events apart. -/
structure GameEvent where
  event_type : EventType
  payload : Nat
  deriving DecidableEq, Repr

/-- An `EventListener` (lines 80-95) as the bus sees it during one
dispatch: its `enabled` flag, the queued (`immediate=False`) events its
`handle_event` body emits back into the bus, and the consume flag it
returns.  Handler bodies are external code; priority sorting happens at
`subscribe` time, so the stored lists below are already in dispatch
order. -/
structure EventListener where
  enabled : Bool
  emits : List GameEvent
  consumes : Bool
  deriving DecidableEq, Repr

/-- `EventManager` state (lines 109-119): per-kind listener lists, the
global listener list, the pending queue, the re-entrancy flag and the
bounded history. -/
structure BusState where
  global_listeners : List EventListener
  listeners : List (EventType × List EventListener)
  event_queue : List GameEvent
  processing : Bool
  event_history : List GameEvent
  deriving DecidableEq, Repr

/-- `self._max_history = 1000` (line 118). -/
def max_history : Nat := 1000

/-- `event.event_type in self._listeners` plus the keyed list. -/
def listenersFor (s : BusState) (t : EventType) : Option (List EventListener) :=
  (s.listeners.find? fun p => p.1 == t).map (·.2)

/-- One of the two dispatch loops of `_process_event` (lines 204-215 and
219-230): walk the listener list in order; a disabled listener is
skipped; an enabled listener runs (appending its queued emissions) and,
if it returns `True`, consumption stops the loop. -/
def runListeners (s : BusState) : List EventListener → BusState × Bool
  | [] => (s, false)
  | l :: rest =>
    if l.enabled then
      let s' : BusState := { s with event_queue := s.event_queue ++ l.emits }
      if l.consumes then (s', true) else runListeners s' rest
    else runListeners s rest

/-- The two dispatch loops of `_process_event` (lines 201-230): global
listeners first; kind-specific listeners only when no global listener
consumed the event. -/
def dispatchListeners (s : BusState) (e : GameEvent) : BusState :=
  let r := runListeners s s.global_listeners
  if r.2 then r.1
  else
    match listenersFor r.1 e.event_type with
    | none => r.1
    | some ls => (runListeners r.1 ls).1

/-- `EventManager._process_event` (lines 194-230): append to history,
evict the oldest entry past capacity (`pop(0)`), then dispatch. -/
def processEvent (s : BusState) (e : GameEvent) : BusState :=
  let hist0 := s.event_history ++ [e]
  let hist := if hist0.length > max_history then hist0.tail else hist0
  dispatchListeners { s with event_history := hist } e

/-- `EventManager.emit` (lines 157-173) restricted to its effect on the
bus: dispatch synchronously when `immediate`, otherwise append to the
pending queue. -/
def emit (s : BusState) (e : GameEvent) (immediate : Bool) : BusState :=
  if immediate then processEvent s e else { s with event_queue := s.event_queue ++ [e] }

/-- The `while self._event_queue:` loop of `process_events` (lines
188-190).  Handlers may emit while the loop runs, so the queue can grow;
the fuel argument bounds the number of dispatches, and `none` reports
that the loop was still running when it ran out (the Python loop simply
keeps going). -/
def drainLoop : Nat → BusState → Option BusState
  | 0, s => match s.event_queue with
    | [] => some s
    | _ :: _ => none
  | fuel + 1, s => match s.event_queue with
    | [] => some s
    | e :: rest => drainLoop fuel (processEvent { s with event_queue := rest } e)

/-- `EventManager.process_events` (lines 180-192): a no-op while
`_processing` is set; otherwise set the flag, drain the queue to
exhaustion, and clear the flag. -/
def processEvents (fuel : Nat) (s : BusState) : Option BusState :=
  if s.processing then some s
  else (drainLoop fuel { s with processing := true }).map
    fun s' => { s' with processing := false }

theorem runListeners_fst_history (ls : List EventListener) (s : BusState) :
    ((runListeners s ls).1).event_history = s.event_history := by
  induction ls generalizing s with
  | nil => rfl
  | cons l rest ih =>
    simp only [runListeners]
    by_cases he : l.enabled
    · by_cases hc : l.consumes
      · simp [he, hc]
      · simp [he, hc, ih]
    · simp [he, ih]

/-- The history written by `_process_event` is the appended-then-trimmed
list, whatever the listeners do. -/
theorem dispatchListeners_history (s : BusState) (e : GameEvent) :
    (dispatchListeners s e).event_history = s.event_history := by
  simp only [dispatchListeners]
  split
  · rw [runListeners_fst_history]
  · split
    · rw [runListeners_fst_history]
    · rw [runListeners_fst_history, runListeners_fst_history]

theorem processEvent_history (s : BusState) (e : GameEvent) :
    (processEvent s e).event_history =
      if (s.event_history ++ [e]).length > max_history
      then (s.event_history ++ [e]).tail else s.event_history ++ [e] := by
  simp only [processEvent, dispatchListeners_history]

theorem processEvent_history_le (s : BusState) (e : GameEvent)
    (h : s.event_history.length ≤ 1000) :
    (processEvent s e).event_history.length ≤ 1000 := by
  rw [processEvent_history]
  split <;> rename_i hlen <;>
    simp only [max_history, List.length_tail, List.length_append,
      List.length_cons, List.length_nil] at hlen ⊢ <;> omega

theorem drainLoop_history_le (fuel : Nat) (s : BusState)
    (h : s.event_history.length ≤ 1000) :
    ∀ s', drainLoop fuel s = some s' → s'.event_history.length ≤ 1000 := by
  induction fuel generalizing s with
  | zero =>
    intro s' hs'
    simp only [drainLoop] at hs'
    cases hq : s.event_queue with
    | nil => rw [hq] at hs'; simp at hs'; rw [← hs']; exact h
    | cons a l => rw [hq] at hs'; simp at hs'
  | succ n ih =>
    intro s' hs'
    simp only [drainLoop] at hs'
    cases hq : s.event_queue with
    | nil => rw [hq] at hs'; simp at hs'; rw [← hs']; exact h
    | cons e rest =>
      rw [hq] at hs'
      exact ih (processEvent { s with event_queue := rest } e)
        (processEvent_history_le { s with event_queue := rest } e h) s' hs'

/-- C8: every dispatched event is appended to the history (it becomes the
most recent entry), the history length never exceeds 1000 — also across a
whole drain — and when a 1001st entry would appear the oldest entry is
evicted first, preserving FIFO order. -/
theorem claimC8_history_bounded_fifo (s : BusState) (e : GameEvent)
    (h : s.event_history.length ≤ 1000) :
    (processEvent s e).event_history.getLast? = some e ∧
    (processEvent s e).event_history.length ≤ 1000 ∧
    (s.event_history.length < 1000 →
      (processEvent s e).event_history = s.event_history ++ [e]) ∧
    (s.event_history.length = 1000 →
      (processEvent s e).event_history = s.event_history.tail ++ [e]) ∧
    (∀ fuel s', drainLoop fuel s = some s' →
      s'.event_history.length ≤ 1000) := by
  refine ⟨?_, processEvent_history_le s e h, ?_, ?_,
    fun fuel s' => drainLoop_history_le fuel s h s'⟩
  · rw [processEvent_history]
    split <;> rename_i hlen
    · cases hh : s.event_history with
      | nil =>
        rw [hh] at hlen
        simp [max_history] at hlen
      | cons a l =>
        simp [List.getLast?_concat]
    · exact List.getLast?_concat _
  · intro hlt
    rw [processEvent_history]
    rw [if_neg]
    simp only [List.length_append, List.length_cons, List.length_nil, max_history]
    omega
  · intro hlen
    rw [processEvent_history]
    rw [if_pos (by simp only [max_history, List.length_append,
      List.length_cons, List.length_nil]; omega)]
    cases hh : s.event_history with
    | nil => rw [hh] at hlen; simp at hlen
    | cons a l => simp

/-- Witness for C8: a one-entry history receives a new event at the end. -/
theorem claimC8_history_bounded_fifo_witness :
    (List.length [GameEvent.mk EventType.PLAYER_DIED 7] ≤ 1000) ∧
      (processEvent ⟨[], [], [], false, [⟨EventType.PLAYER_DIED, 7⟩]⟩
          ⟨EventType.QUEST_STARTED, 8⟩).event_history.getLast? =
        some ⟨EventType.QUEST_STARTED, 8⟩ :=
  ⟨by decide,
    (claimC8_history_bounded_fifo ⟨[], [], [], false, [⟨EventType.PLAYER_DIED, 7⟩]⟩
      ⟨EventType.QUEST_STARTED, 8⟩ (by decide)).1⟩

/-- C2 counterexample: one queued event whose (kind-specific, enabled,
non-consuming) listener emits a second event with `immediate=False`
*during* the drain.  A single external `process_events` call dispatches
both: the second event reaches the history in the same drain, which the
claim forbids. -/
theorem claimC2_same_drain_counterexample :
    processEvents 10
        ⟨[], [(EventType.PLAYER_MOVED,
                [⟨true, [⟨EventType.QUEST_STARTED, 1⟩], false⟩])],
          [⟨EventType.PLAYER_MOVED, 0⟩], false, []⟩ =
      some ⟨[], [(EventType.PLAYER_MOVED,
                [⟨true, [⟨EventType.QUEST_STARTED, 1⟩], false⟩])],
          [], false,
          [⟨EventType.PLAYER_MOVED, 0⟩, ⟨EventType.QUEST_STARTED, 1⟩]⟩ := by
  decide

theorem drainLoop_queue_empty (fuel : Nat) (s : BusState) :
    ∀ s', drainLoop fuel s = some s' → s'.event_queue = [] := by
  induction fuel generalizing s with
  | zero =>
    intro s' hs'
    simp only [drainLoop] at hs'
    cases hq : s.event_queue with
    | nil => rw [hq] at hs'; simp at hs'; rw [← hs', hq]
    | cons a l => rw [hq] at hs'; simp at hs'
  | succ n ih =>
    intro s' hs'
    simp only [drainLoop] at hs'
    cases hq : s.event_queue with
    | nil => rw [hq] at hs'; simp at hs'; rw [← hs', hq]
    | cons e rest =>
      rw [hq] at hs'
      exact ih (processEvent { s with event_queue := rest } e) s' hs'

/-- C2 (amended): a `process_events` call made while a drain is already
in progress (`_processing` set) dispatches nothing and changes nothing;
an *external* call (flag clear) drains until the queue is empty, so
events queued by handlers with `immediate=False` during the drain are
dispatched later in that same drain, not deferred to the next call. -/
theorem claimC2_drain_to_exhaustion (fuel : Nat) (s : BusState) :
    (s.processing = true → processEvents fuel s = some s) ∧
    (s.processing = false → ∀ s', processEvents fuel s = some s' →
      s'.event_queue = []) := by
  constructor
  · intro hp
    simp [processEvents, hp]
  · intro hp s' hs'
    rw [processEvents, hp] at hs'
    simp only [Bool.false_eq_true, if_false] at hs'
    cases hd : drainLoop fuel { s with processing := true } with
    | none => rw [hd] at hs'; simp at hs'
    | some s2 =>
      rw [hd, Option.map_some'] at hs'
      cases hs'
      exact drainLoop_queue_empty fuel _ s2 hd

/-- Witness for C2 (amended): a nested call on a bus whose drain flag is
set is the identity even though an event is queued. -/
theorem claimC2_drain_to_exhaustion_witness :
    BusState.processing ⟨[], [], [⟨EventType.GAME_PAUSED, 3⟩], true, []⟩ = true ∧
      processEvents 4 ⟨[], [], [⟨EventType.GAME_PAUSED, 3⟩], true, []⟩ =
        some ⟨[], [], [⟨EventType.GAME_PAUSED, 3⟩], true, []⟩ :=
  ⟨rfl, (claimC2_drain_to_exhaustion 4
    ⟨[], [], [⟨EventType.GAME_PAUSED, 3⟩], true, []⟩).1 rfl⟩

/-- Witness for C10 on a two-object heap, zeroing the minute field of the
returned copy. -/
theorem claimC10_getTime_returns_copy_witness :
    (TimeHeap.currentRef ⟨[⟨1, 2, 3, 4, 5⟩, ⟨2, 3, 4, 5, 6⟩], 0⟩ <
        (TimeHeap.objs ⟨[⟨1, 2, 3, 4, 5⟩, ⟨2, 3, 4, 5, 6⟩], 0⟩).length) ∧
    (((getTime ⟨[⟨1, 2, 3, 4, 5⟩, ⟨2, 3, 4, 5, 6⟩], 0⟩).1.mutate
          (getTime ⟨[⟨1, 2, 3, 4, 5⟩, ⟨2, 3, 4, 5, 6⟩], 0⟩).2
          (fun t => { t with minute := 0 })).readRef 0 =
      TimeHeap.readRef ⟨[⟨1, 2, 3, 4, 5⟩, ⟨2, 3, 4, 5, 6⟩], 0⟩ 0) :=
  ⟨by decide,
    (claimC10_getTime_returns_copy ⟨[⟨1, 2, 3, 4, 5⟩, ⟨2, 3, 4, 5, 6⟩], 0⟩
      (fun t => { t with minute := 0 }) (by decide)).1⟩

/-! ## State machine: `src/game/engine/state_manager.py`

Python objects are modelled with an explicit heap: `objs` is the list of
all `GameState` objects ever created, object ids are indices into it,
and both the registry (`self.states`, a dict `StateType → object`) and
the stack (`self.state_stack`, a list of object references, bottom
first) hold ids.  Lifecycle calls (`enter`/`exit`/`pause`/`resume`/
`cleanup`/`update`) whose bodies belong to the excluded gameplay layer
are recorded in an append-only `log`. -/

/-- `StateType` enumeration (state_manager.py, lines 14-33). -/
inductive StateType where
  | SPLASH_SCREEN | MAIN_MENU | CHARACTER_CREATION | LOADING | GAMEPLAY
  | COMBAT | DIALOGUE | INVENTORY | CHARACTER_SHEET | QUEST_LOG
  | WORLD_MAP | SHOP | CRAFTING | SETTINGS | PAUSE_MENU | SAVE_LOAD
  | GAME_OVER | CREDITS
  deriving DecidableEq, Repr

/-- State-local data (`self.data`, a string-keyed dict whose values the
core never inspects). -/
abbrev SData := List (String × Nat)

/-- `dict.update`: existing keys are overwritten in place, new keys
appended in order. -/
def dictUpdate (d upd : SData) : SData :=
  (d.map fun p =>
    match upd.find? fun q => q.1 == p.1 with
    | some q => q
    | none => p) ++
  (upd.filter fun q => (d.find? fun p => p.1 == q.1).isNone)

/-- The observable base-class state of a `GameState` object
(state_manager.py, lines 39-53): the `__init__` flags and data dict.
`inited` is the `initialized` flag.  `consumes_input` records what the
(external, gameplay-layer) `handle_event` override returns for the event
being routed. -/
structure GameState where
  state_type : StateType
  active : Bool
  inited : Bool
  can_pause : Bool
  blocks_input : Bool
  overlay : Bool
  data : SData
  consumes_input : Bool
  deriving DecidableEq, Repr

/-- `__init__` defaults: inactive, uninitialised, `can_pause=True`,
`blocks_input=False`, `overlay=False`, empty data. -/
instance : Inhabited GameState :=
  ⟨⟨StateType.SPLASH_SCREEN, false, false, true, false, false, [], false⟩⟩

/-- A recorded lifecycle call on the object with the given id. -/
inductive LCall where
  | enter (id : Nat) (data : SData)
  | exits (id : Nat)
  | pause (id : Nat)
  | resume (id : Nat)
  | cleanup (id : Nat)
  | updateCall (id : Nat)
  deriving DecidableEq, Repr

/-- The single-slot pending transition (`self._pending_transition`,
lines 122-124 and 157-196): a dict with `type`, `target` and `data`. -/
inductive Transition where
  | change (target : StateType) (data : SData)
  | push (target : StateType) (data : SData)
  | pop
  deriving DecidableEq, Repr

/-- `StateManager` state (lines 113-128) over the object heap. -/
structure SMState where
  objs : List GameState
  states : List (StateType × Nat)
  state_stack : List Nat
  current_state : Option Nat
  pending : Option Transition
  state_history : List StateType
  log : List LCall
  deriving DecidableEq, Repr

/-- The empty manager (`__init__`). -/
def initSM : SMState := ⟨[], [], [], none, none, [], []⟩

/-- Dict lookup `self.states[k]` / `k in self.states`. -/
def lookupA (l : List (StateType × Nat)) (k : StateType) : Option Nat :=
  (l.find? fun p => p.1 == k).map (·.2)

/-- Dict assignment `self.states[k] = v`: overwrite in place when the
key exists, append otherwise. -/
def insertKey (l : List (StateType × Nat)) (k : StateType) (v : Nat) :
    List (StateType × Nat) :=
  if (l.find? fun p => p.1 == k).isSome then
    l.map fun p => if p.1 == k then (k, v) else p
  else l ++ [(k, v)]

/-- Dict deletion `del self.states[k]`. -/
def eraseKey (l : List (StateType × Nat)) (k : StateType) :
    List (StateType × Nat) :=
  l.filter fun p => p.1 != k

/-- Dereference an object id. -/
def getObj (s : SMState) (i : Nat) : GameState :=
  s.objs.getD i default

/-- Mutate the object behind an id in place. -/
def setObj (s : SMState) (i : Nat) (f : GameState → GameState) : SMState :=
  { s with objs := s.objs.set i (f (getObj s i)) }

/-- `GameState.enter` base behaviour (lines 56-62): set `active`, merge
the supplied data; the override body is recorded in the log. -/
def enterObj (s : SMState) (i : Nat) (data : SData) : SMState :=
  let s1 := setObj s i fun o => { o with active := true, data := dictUpdate o.data data }
  { s1 with log := s1.log ++ [LCall.enter i data] }

/-- `GameState.exit` base behaviour (lines 65-68): clear `active`. -/
def exitObj (s : SMState) (i : Nat) : SMState :=
  let s1 := setObj s i fun o => { o with active := false }
  { s1 with log := s1.log ++ [LCall.exits i] }

/-- `GameState.pause` (lines 101-103): a hook with no base effect. -/
def pauseObj (s : SMState) (i : Nat) : SMState :=
  { s with log := s.log ++ [LCall.pause i] }

/-- `GameState.resume` (lines 105-107): a hook with no base effect. -/
def resumeObj (s : SMState) (i : Nat) : SMState :=
  { s with log := s.log ++ [LCall.resume i] }

/-- `GameState.cleanup` (lines 97-99): a hook with no base effect. -/
def cleanupObj (s : SMState) (i : Nat) : SMState :=
  { s with log := s.log ++ [LCall.cleanup i] }

/-- `StateManager._add_to_history` (lines 340-344), `max_history = 50`. -/
def addToHistory (s : SMState) (k : StateType) : SMState :=
  let h := s.state_history ++ [k]
  { s with state_history := if h.length > 50 then h.tail else h }

/-- `StateManager.register_state` (lines 130-134): store the object under
its kind and run its one-time initialisation (which sets the flag). -/
def register_state (s : SMState) (st : GameState) : SMState :=
  let i := s.objs.length
  let s1 : SMState :=
    { s with objs := s.objs ++ [st], states := insertKey s.states st.state_type i }
  setObj s1 i fun o => { o with inited := true }

/-- `StateManager.unregister_state` (lines 136-145): if registered, call
`cleanup` and delete the registry entry. The state is *not* removed from
the stack, even when it is active (that case is merely logged as a
warning). -/
def unregister_state (s : SMState) (k : StateType) : SMState :=
  match lookupA s.states k with
  | none => s
  | some i =>
    let s1 := cleanupObj s i
    { s1 with states := eraseKey s1.states k }

/-- `StateManager._perform_state_change` (lines 282-301): exit the
*current* state only, replace the stack with the target, enter it with
the supplied data.  `none` models the `KeyError` raised when the target
was unregistered after the transition was queued. -/
def performStateChange (s : SMState) (k : StateType) (data : SData) :
    Option SMState :=
  match lookupA s.states k with
  | none => none
  | some i =>
    let s1 := match s.current_state with
      | some c => exitObj s c
      | none => s
    let s2 : SMState := { s1 with state_stack := [i], current_state := some i }
    let s3 := enterObj s2 i data
    some (addToHistory s3 k)

/-- `StateManager._perform_state_push` (lines 303-322): pause the current
top when it declares `can_pause`, append the target, enter it. -/
def performStatePush (s : SMState) (k : StateType) (data : SData) :
    Option SMState :=
  match lookupA s.states k with
  | none => none
  | some i =>
    let s1 := match s.current_state with
      | some c => if (getObj s c).can_pause then pauseObj s c else s
      | none => s
    let s2 : SMState :=
      { s1 with state_stack := s1.state_stack ++ [i], current_state := some i }
    let s3 := enterObj s2 i data
    some (addToHistory s3 k)

/-- `StateManager._perform_state_pop` (lines 324-338): guard against a
singleton stack, exit and drop the top, resume the new top. -/
def performStatePop (s : SMState) : SMState :=
  if s.state_stack.length ≤ 1 then s
  else
    match s.state_stack.getLast? with
    | none => s
    | some c =>
      let s1 := exitObj s c
      let s2 : SMState := { s1 with state_stack := s1.state_stack.dropLast, current_state := s1.state_stack.dropLast.getLast? }
      match s2.current_state with
      | some c2 => resumeObj s2 c2
      | none => s2

/-- `StateManager.change_state` (lines 147-163): boolean failure when the
target kind is unregistered; otherwise perform immediately or overwrite
the single pending-transition slot. -/
def change_state (s : SMState) (k : StateType) (data : SData)
    (immediate : Bool) : Bool × Option SMState :=
  if (lookupA s.states k).isNone then (false, some s)
  else if immediate then (true, performStateChange s k data)
  else (true, some { s with pending := some (Transition.change k data) })

/-- `StateManager.push_state` (lines 165-181). -/
def push_state (s : SMState) (k : StateType) (data : SData)
    (immediate : Bool) : Bool × Option SMState :=
  if (lookupA s.states k).isNone then (false, some s)
  else if immediate then (true, performStatePush s k data)
  else (true, some { s with pending := some (Transition.push k data) })

/-- `StateManager.pop_state` (lines 183-198): refuse (returning `False`
and touching nothing) when the stack holds one entry or fewer. -/
def pop_state (s : SMState) (immediate : Bool) : Bool × SMState :=
  if s.state_stack.length ≤ 1 then (false, s)
  else if immediate then (true, performStatePop s)
  else (true, { s with pending := some Transition.pop })

/-- The `while len(self.state_stack) > target_index + 1` loop of
`back_to_state`: each iteration is one `pop_state(immediate=True)`.  The
fuel is the initial excess, which the loop removes one entry at a
time. -/
def popN : SMState → Nat → SMState
  | s, 0 => s
  | s, n + 1 => popN (pop_state s true).2 n

/-- `StateManager.back_to_state` (lines 200-221): locate the first stack
entry of the target kind (bottom-up), pop above it, then merge the data
into the now-current state without re-entering it. -/
def back_to_state (s : SMState) (k : StateType) (data : SData) :
    Bool × SMState :=
  match s.state_stack.findIdx? fun i => (getObj s i).state_type == k with
  | none => (false, s)
  | some idx =>
    let s1 := popN s (s.state_stack.length - (idx + 1))
    let s2 := if data.isEmpty then s1
      else match s1.current_state with
      | some c => setObj s1 c fun o => { o with data := dictUpdate o.data data }
      | none => s1
    (true, s2)

/-- The `while self.state_stack:` loop of `clear_stack` (lines 229-232):
pop the top and call its `exit` until the stack is empty; the fuel is
the stack length. -/
def exitAllF : Nat → SMState → SMState
  | 0, s => s
  | n + 1, s =>
    match s.state_stack.getLast? with
    | none => s
    | some c =>
      let s1 := exitObj s c
      exitAllF n { s1 with state_stack := s1.state_stack.dropLast }

/-- `StateManager.clear_stack` (lines 223-235): check registration, exit
every stacked state, then immediately change to the new base state. -/
def clear_stack (s : SMState) (k : StateType) (data : SData) :
    Bool × Option SMState :=
  if (lookupA s.states k).isNone then (false, some s)
  else
    let s1 := exitAllF s.state_stack.length s
    change_state s1 k data true

/-- The tail of `StateManager.update` (lines 251-253): invoke `update`
on the current state when it is active. -/
def postUpdateCall (s1 : SMState) : SMState :=
  match s1.current_state with
  | some c =>
    if (getObj s1 c).active then { s1 with log := s1.log ++ [LCall.updateCall c] }
    else s1
  | none => s1

/-- `StateManager.update` (lines 237-253): dequeue and clear the pending
transition before applying it, then call `update` on the current state
when it is active. -/
def updateSM (s : SMState) : Option SMState :=
  (match s.pending with
   | none => some s
   | some t =>
     let s0 : SMState := { s with pending := none }
     match t with
     | Transition.change k data => performStateChange s0 k data
     | Transition.push k data => performStatePush s0 k data
     | Transition.pop => some (performStatePop s0)).map postUpdateCall

/-- `StateManager.handle_event` (lines 273-280) over the reversed stack
(top first): a state runs its handler only when it is active and does
*not* have `blocks_input` set; a consumed event stops the walk.  Returns
the consumed flag and the ids whose `handle_event` was invoked, in
order. -/
def handleEventFrom (s : SMState) : List Nat → Bool × List Nat
  | [] => (false, [])
  | i :: rest =>
    let o := getObj s i
    if o.active && !o.blocks_input then
      if o.consumes_input then (true, [i])
      else
        let r := handleEventFrom s rest
        (r.1, i :: r.2)
    else handleEventFrom s rest

/-- The return value of `StateManager.handle_event`. -/
def handle_event (s : SMState) : Bool :=
  (handleEventFrom s s.state_stack.reverse).1

/-- The states whose `handle_event` method the walk invokes. -/
def handledStates (s : SMState) : List Nat :=
  (handleEventFrom s s.state_stack.reverse).2

/-- Whether a state takes part in input routing:
`state.active and not state.blocks_input` (line 277). -/
def inputEligible (s : SMState) (i : Nat) : Bool :=
  (getObj s i).active && !(getObj s i).blocks_input

/-- Stated from the spec's words, for comparison with the code: offer the
event to the listed states in order, stopping after (and including) the
first one that consumes it. -/
def offeredUpToConsumer (s : SMState) : List Nat → List Nat
  | [] => []
  | i :: rest =>
    if (getObj s i).consumes_input then [i]
    else i :: offeredUpToConsumer s rest

/-- C1 counterexample: a two-state stack whose top (id 1) is active with
`blocks_input` set and does not consume, and whose bottom (id 0) is an
active consumer.  The claim says state 0, sitting below the topmost
`blocks_input` state, never sees the event; the code *skips* the blocking
state and invokes `handle_event` on state 0, which consumes it. -/
theorem claimC1_blocks_input_counterexample :
    handledStates
        ⟨[⟨StateType.GAMEPLAY, true, true, true, false, false, [], true⟩,
          ⟨StateType.PAUSE_MENU, true, true, true, true, false, [], false⟩],
         [(StateType.GAMEPLAY, 0), (StateType.PAUSE_MENU, 1)],
         [0, 1], some 1, none, [], []⟩ = [0] ∧
      handle_event
        ⟨[⟨StateType.GAMEPLAY, true, true, true, false, false, [], true⟩,
          ⟨StateType.PAUSE_MENU, true, true, true, true, false, [], false⟩],
         [(StateType.GAMEPLAY, 0), (StateType.PAUSE_MENU, 1)],
         [0, 1], some 1, none, [], []⟩ = true := by
  decide

theorem handleEventFrom_eq (s : SMState) (l : List Nat) :
    handleEventFrom s l =
      (((l.filter (inputEligible s)).any fun i => (getObj s i).consumes_input),
        offeredUpToConsumer s (l.filter (inputEligible s))) := by
  induction l with
  | nil => rfl
  | cons i rest ih =>
    cases he : inputEligible s i with
    | true =>
      have hcond : ((getObj s i).active && !(getObj s i).blocks_input) = true := he
      cases hc : (getObj s i).consumes_input with
      | true =>
        simp [handleEventFrom, hcond, hc, List.filter_cons, he, offeredUpToConsumer]
      | false =>
        simp [handleEventFrom, hcond, hc, ih, List.filter_cons, he,
          offeredUpToConsumer]
    | false =>
      have hcond : ((getObj s i).active && !(getObj s i).blocks_input) = false := he
      simp [handleEventFrom, hcond, ih, List.filter_cons, he]

theorem offeredUpToConsumer_subset (s : SMState) (l : List Nat) (i : Nat)
    (h : i ∈ offeredUpToConsumer s l) : i ∈ l := by
  induction l with
  | nil => simp [offeredUpToConsumer] at h
  | cons j rest ih =>
    by_cases hc : (getObj s j).consumes_input
    · simp [offeredUpToConsumer, hc] at h
      simp [h]
    · simp [offeredUpToConsumer, hc] at h
      rcases h with rfl | h
      · simp
      · simp [ih h]

/-- C1 (amended): the event is offered top-to-bottom; a state with
`blocks_input` set is *skipped* — it never receives the event itself, but
states below it still do.  Exactly the active, non-`blocks_input` states
down to (and including) the first consumer receive the event, and the
call reports consumption iff one of those eligible states consumes. -/
theorem claimC1_blocks_input_skipped (s : SMState) :
    handledStates s =
      offeredUpToConsumer s (s.state_stack.reverse.filter (inputEligible s)) ∧
    (∀ i ∈ handledStates s,
      (getObj s i).active = true ∧ (getObj s i).blocks_input = false) ∧
    handle_event s =
      ((s.state_stack.reverse.filter (inputEligible s)).any
        fun i => (getObj s i).consumes_input) := by
  refine ⟨?_, ?_, ?_⟩
  · rw [handledStates, handleEventFrom_eq]
  · intro i hi
    rw [handledStates, handleEventFrom_eq] at hi
    have hmem := offeredUpToConsumer_subset s _ i hi
    have := List.of_mem_filter hmem
    simp [inputEligible] at this
    exact this
  · rw [handle_event, handleEventFrom_eq]

/-- C7: popping with one state (or none) on the stack fails with `False`
and changes nothing at all — neither through `pop_state` (immediate or
deferred) nor through a previously queued pop applied by `update`
(`_perform_state_pop` has the same guard). -/
theorem claimC7_pop_singleton_fails (s : SMState) (immediate : Bool)
    (h : s.state_stack.length ≤ 1) :
    pop_state s immediate = (false, s) ∧ performStatePop s = s := by
  constructor
  · simp [pop_state, h]
  · simp [performStatePop, h]

/-- Witness for C7 on a singleton stack. -/
theorem claimC7_pop_singleton_fails_witness :
    (List.length [0] ≤ 1) ∧
      pop_state
        ⟨[⟨StateType.GAMEPLAY, true, true, true, false, false, [], false⟩],
         [(StateType.GAMEPLAY, 0)], [0], some 0, none, [], []⟩ true =
      (false,
        ⟨[⟨StateType.GAMEPLAY, true, true, true, false, false, [], false⟩],
         [(StateType.GAMEPLAY, 0)], [0], some 0, none, [], []⟩) :=
  ⟨by decide,
    (claimC7_pop_singleton_fails
      ⟨[⟨StateType.GAMEPLAY, true, true, true, false, false, [], false⟩],
       [(StateType.GAMEPLAY, 0)], [0], some 0, none, [], []⟩ true (by decide)).1⟩

/-! ### Sequences of `StateManager` operations -/

/-- One externally invocable `StateManager` operation. -/
inductive Op where
  | register (st : GameState)
  | unregister (k : StateType)
  | change (k : StateType) (data : SData) (immediate : Bool)
  | push (k : StateType) (data : SData) (immediate : Bool)
  | pop (immediate : Bool)
  | backTo (k : StateType) (data : SData)
  | clearStack (k : StateType) (data : SData)
  | update
  deriving DecidableEq, Repr

/-- Apply one operation; `none` models an uncaught Python exception
(`KeyError` on a stale deferred transition target). -/
def stepOp (s : SMState) : Op → Option SMState
  | Op.register st => some (register_state s st)
  | Op.unregister k => some (unregister_state s k)
  | Op.change k data imm => (change_state s k data imm).2
  | Op.push k data imm => (push_state s k data imm).2
  | Op.pop imm => some (pop_state s imm).2
  | Op.backTo k data => some (back_to_state s k data).2
  | Op.clearStack k data => (clear_stack s k data).2
  | Op.update => updateSM s

/-- Run a sequence of operations. -/
def runOps : SMState → List Op → Option SMState
  | s, [] => some s
  | s, op :: ops =>
    match stepOp s op with
    | none => none
    | some s' => runOps s' ops

/-- Every object referenced by the stack is present (as a value) in the
registry — the first half of the claimed invariant. -/
def stackRegistered (s : SMState) : Prop :=
  ∀ i ∈ s.state_stack, ∃ p ∈ s.states, p.2 = i

instance (s : SMState) : Decidable (stackRegistered s) := by
  unfold stackRegistered; infer_instance

/-- The claimed `StateManager` invariant: the stack references only
registered states, and `current_state` is the top of the stack (or
`None` when the stack is empty). -/
def SMInv (s : SMState) : Prop :=
  stackRegistered s ∧ s.current_state = s.state_stack.getLast?

instance (s : SMState) : Decidable (SMInv s) := by
  unfold SMInv; infer_instance

/-! ### Field-tracking lemmas for the lifecycle helpers -/

@[simp] theorem setObj_states (s : SMState) (i : Nat) (f : GameState → GameState) :
    (setObj s i f).states = s.states := rfl

@[simp] theorem setObj_stack (s : SMState) (i : Nat) (f : GameState → GameState) :
    (setObj s i f).state_stack = s.state_stack := rfl

@[simp] theorem setObj_current (s : SMState) (i : Nat) (f : GameState → GameState) :
    (setObj s i f).current_state = s.current_state := rfl

@[simp] theorem setObj_pending (s : SMState) (i : Nat) (f : GameState → GameState) :
    (setObj s i f).pending = s.pending := rfl

@[simp] theorem setObj_log (s : SMState) (i : Nat) (f : GameState → GameState) :
    (setObj s i f).log = s.log := rfl

@[simp] theorem enterObj_states (s : SMState) (i : Nat) (d : SData) :
    (enterObj s i d).states = s.states := rfl

@[simp] theorem enterObj_stack (s : SMState) (i : Nat) (d : SData) :
    (enterObj s i d).state_stack = s.state_stack := rfl

@[simp] theorem enterObj_current (s : SMState) (i : Nat) (d : SData) :
    (enterObj s i d).current_state = s.current_state := rfl

@[simp] theorem enterObj_log (s : SMState) (i : Nat) (d : SData) :
    (enterObj s i d).log = s.log ++ [LCall.enter i d] := rfl

@[simp] theorem exitObj_states (s : SMState) (i : Nat) :
    (exitObj s i).states = s.states := rfl

@[simp] theorem exitObj_stack (s : SMState) (i : Nat) :
    (exitObj s i).state_stack = s.state_stack := rfl

@[simp] theorem exitObj_current (s : SMState) (i : Nat) :
    (exitObj s i).current_state = s.current_state := rfl

@[simp] theorem exitObj_log (s : SMState) (i : Nat) :
    (exitObj s i).log = s.log ++ [LCall.exits i] := rfl

@[simp] theorem pauseObj_states (s : SMState) (i : Nat) :
    (pauseObj s i).states = s.states := rfl

@[simp] theorem pauseObj_stack (s : SMState) (i : Nat) :
    (pauseObj s i).state_stack = s.state_stack := rfl

@[simp] theorem pauseObj_current (s : SMState) (i : Nat) :
    (pauseObj s i).current_state = s.current_state := rfl

@[simp] theorem pauseObj_log (s : SMState) (i : Nat) :
    (pauseObj s i).log = s.log ++ [LCall.pause i] := rfl

@[simp] theorem resumeObj_states (s : SMState) (i : Nat) :
    (resumeObj s i).states = s.states := rfl

@[simp] theorem resumeObj_stack (s : SMState) (i : Nat) :
    (resumeObj s i).state_stack = s.state_stack := rfl

@[simp] theorem resumeObj_current (s : SMState) (i : Nat) :
    (resumeObj s i).current_state = s.current_state := rfl

@[simp] theorem cleanupObj_states (s : SMState) (i : Nat) :
    (cleanupObj s i).states = s.states := rfl

@[simp] theorem cleanupObj_stack (s : SMState) (i : Nat) :
    (cleanupObj s i).state_stack = s.state_stack := rfl

@[simp] theorem cleanupObj_current (s : SMState) (i : Nat) :
    (cleanupObj s i).current_state = s.current_state := rfl

@[simp] theorem addToHistory_states (s : SMState) (k : StateType) :
    (addToHistory s k).states = s.states := rfl

@[simp] theorem addToHistory_stack (s : SMState) (k : StateType) :
    (addToHistory s k).state_stack = s.state_stack := rfl

@[simp] theorem addToHistory_current (s : SMState) (k : StateType) :
    (addToHistory s k).current_state = s.current_state := rfl

@[simp] theorem addToHistory_log (s : SMState) (k : StateType) :
    (addToHistory s k).log = s.log := rfl

/-- C3 counterexample: build a two-state stack (ids 0 and 1) and apply an
immediate change to a third registered state.  The lifecycle log of the
reached state records `exit` for state 1 (the top) only — state 0 is
dropped from the stack without `exit` ever being invoked on it, while the
claim demands `exit` on every one of the k = 2 stacked states. -/
theorem claimC3_change_counterexample :
    ((runOps initSM
        [Op.register ⟨StateType.GAMEPLAY, false, false, true, false, false, [], false⟩,
         Op.register ⟨StateType.PAUSE_MENU, false, false, true, false, false, [], false⟩,
         Op.register ⟨StateType.MAIN_MENU, false, false, true, false, false, [], false⟩,
         Op.change StateType.GAMEPLAY [] true,
         Op.push StateType.PAUSE_MENU [] true,
         Op.change StateType.MAIN_MENU [] true]).map
      fun s => (s.log.count (LCall.exits 0), s.log.count (LCall.exits 1),
        s.state_stack)) = some (0, 1, [2]) := by
  decide

/-- Full characterisation of `_perform_state_change` on a registered
target. -/
theorem performStateChange_spec (s : SMState) (k : StateType)
    (data : SData) (i : Nat) (hreg : lookupA s.states k = some i) :
    ∃ s', performStateChange s k data = some s' ∧
      s'.state_stack = [i] ∧
      s'.current_state = some i ∧
      s'.states = s.states ∧
      s'.log = s.log ++
        ((match s.current_state with
          | some c => [LCall.exits c]
          | none => []) ++ [LCall.enter i data]) ∧
      (∀ c, LCall.pause c ∉ s'.log.drop s.log.length) := by
  cases hc : s.current_state with
  | none =>
    simp only [performStateChange, hreg, hc]
    refine ⟨_, rfl, by simp, by simp, by simp, by simp, ?_⟩
    intro c
    simp only [addToHistory_log, enterObj_log, List.nil_append]
    rw [List.drop_left]
    simp
  | some c0 =>
    simp only [performStateChange, hreg, hc]
    refine ⟨_, rfl, by simp, by simp, by simp, by simp, ?_⟩
    intro c
    simp only [addToHistory_log, enterObj_log, exitObj_log, List.append_assoc]
    rw [List.drop_left]
    simp

/-- C3 (amended): applying a change transition to a registered target
exits only the *current* (top) state — any states beneath it are removed
from the stack without `exit` (and without `pause`) — then the stack
becomes exactly the target and the target is entered with the supplied
data. -/
theorem claimC3_change_exits_top_only (s : SMState) (k : StateType)
    (data : SData) (i : Nat) (hreg : lookupA s.states k = some i) :
    ∃ s', performStateChange s k data = some s' ∧
      s'.state_stack = [i] ∧
      s'.current_state = some i ∧
      s'.states = s.states ∧
      s'.log = s.log ++
        ((match s.current_state with
          | some c => [LCall.exits c]
          | none => []) ++ [LCall.enter i data]) ∧
      (∀ c, LCall.pause c ∉ s'.log.drop s.log.length) :=
  performStateChange_spec s k data i hreg

/-- Witness for C3 (amended) on a two-state stack. -/
theorem claimC3_change_exits_top_only_witness :
    (lookupA [(StateType.GAMEPLAY, 0), (StateType.PAUSE_MENU, 1),
        (StateType.MAIN_MENU, 2)] StateType.MAIN_MENU = some 2) ∧
    ∃ s', performStateChange
        ⟨[⟨StateType.GAMEPLAY, true, true, true, false, false, [], false⟩,
          ⟨StateType.PAUSE_MENU, true, true, true, false, false, [], false⟩,
          ⟨StateType.MAIN_MENU, false, true, true, false, false, [], false⟩],
         [(StateType.GAMEPLAY, 0), (StateType.PAUSE_MENU, 1),
          (StateType.MAIN_MENU, 2)],
         [0, 1], some 1, none, [], []⟩ StateType.MAIN_MENU [] = some s' ∧
      s'.state_stack = [2] ∧
      s'.current_state = some 2 ∧
      s'.states = SMState.states
        ⟨[⟨StateType.GAMEPLAY, true, true, true, false, false, [], false⟩,
          ⟨StateType.PAUSE_MENU, true, true, true, false, false, [], false⟩,
          ⟨StateType.MAIN_MENU, false, true, true, false, false, [], false⟩],
         [(StateType.GAMEPLAY, 0), (StateType.PAUSE_MENU, 1),
          (StateType.MAIN_MENU, 2)],
         [0, 1], some 1, none, [], []⟩ ∧
      s'.log = [] ++
        ((match (some 1 : Option Nat) with
          | some c => [LCall.exits c]
          | none => []) ++ [LCall.enter 2 []]) ∧
      (∀ c, LCall.pause c ∉ s'.log.drop (List.length ([] : List LCall))) :=
  ⟨by decide,
    claimC3_change_exits_top_only
      ⟨[⟨StateType.GAMEPLAY, true, true, true, false, false, [], false⟩,
        ⟨StateType.PAUSE_MENU, true, true, true, false, false, [], false⟩,
        ⟨StateType.MAIN_MENU, false, true, true, false, false, [], false⟩],
       [(StateType.GAMEPLAY, 0), (StateType.PAUSE_MENU, 1),
        (StateType.MAIN_MENU, 2)],
       [0, 1], some 1, none, [], []⟩ StateType.MAIN_MENU [] 2 (by decide)⟩

/-- C5 counterexample: register a state, change to it, then unregister
it.  `unregister_state` leaves the stack untouched, so the reached state
has the (still stacked) object 0 absent from the registry: the claimed
invariant is violated after this operation sequence. -/
theorem claimC5_unregister_counterexample :
    ((runOps initSM
        [Op.register ⟨StateType.GAMEPLAY, false, false, true, false, false, [], false⟩,
         Op.change StateType.GAMEPLAY [] true,
         Op.unregister StateType.GAMEPLAY]).map
      fun s => (s.state_stack, decide (stackRegistered s))) =
    some ([0], false) := by
  decide

/-! ### Preservation of the invariant by every safe operation -/

/-- The registry binding of this kind is currently referenced by the
stack: rebinding or deleting it would orphan a stacked reference. -/
def stackedBinding (s : SMState) (k : StateType) : Bool :=
  s.states.any fun p => p.1 == k && decide (p.2 ∈ s.state_stack)

/-- The side condition the amended C5 needs: `register`/`unregister` of a
kind whose current binding sits on the stack is excluded (the
counterexample shows the invariant genuinely breaks there); every other
operation is unconditionally safe. -/
def safeOpB (s : SMState) : Op → Bool
  | Op.register st => !stackedBinding s st.state_type
  | Op.unregister k => !stackedBinding s k
  | _ => true

/-- Run a sequence of operations, stopping (with `none`) at the first
invariant-breaking registration, unregistration or uncaught exception. -/
def runSafe : SMState → List Op → Option SMState
  | s, [] => some s
  | s, op :: ops =>
    if safeOpB s op then
      match stepOp s op with
      | none => none
      | some s' => runSafe s' ops
    else none

theorem lookupA_mem (l : List (StateType × Nat)) (k : StateType) (i : Nat)
    (h : lookupA l k = some i) : ∃ p ∈ l, p.2 = i := by
  unfold lookupA at h
  cases hf : l.find? fun p => p.1 == k with
  | none => rw [hf] at h; simp at h
  | some q =>
    rw [hf] at h
    simp only [Option.map_some', Option.some.injEq] at h
    exact ⟨q, List.mem_of_find?_eq_some hf, h⟩

/-- The invariant only reads three fields. -/
theorem SMInv_of_fields (s' s : SMState) (h1 : s'.states = s.states)
    (h2 : s'.state_stack = s.state_stack)
    (h3 : s'.current_state = s.current_state) (h : SMInv s) : SMInv s' := by
  unfold SMInv stackRegistered at *
  rw [h1, h2, h3]
  exact h

theorem performStateChange_inv (s s' : SMState) (k : StateType) (d : SData)
    (h : performStateChange s k d = some s') : SMInv s' := by
  cases hl : lookupA s.states k with
  | none => unfold performStateChange at h; rw [hl] at h; simp at h
  | some i =>
    obtain ⟨s2, hs2, hstack, hcur, hstates, -, -⟩ :=
      performStateChange_spec s k d i hl
    rw [hs2, Option.some.injEq] at h
    subst h
    constructor
    · intro j hj
      rw [hstack] at hj
      simp only [List.mem_singleton] at hj
      subst hj
      obtain ⟨p, hp, hpi⟩ := lookupA_mem s.states k j hl
      exact ⟨p, by rw [hstates]; exact hp, hpi⟩
    · rw [hcur, hstack]
      rfl

/-- Characterisation of `_perform_state_push` on a registered target. -/
theorem performStatePush_spec (s : SMState) (k : StateType) (data : SData)
    (i : Nat) (hreg : lookupA s.states k = some i) :
    ∃ s', performStatePush s k data = some s' ∧
      s'.state_stack = s.state_stack ++ [i] ∧
      s'.current_state = some i ∧
      s'.states = s.states := by
  cases hc : s.current_state with
  | none =>
    simp only [performStatePush, hreg, hc]
    exact ⟨_, rfl, by simp, by simp, by simp⟩
  | some c0 =>
    cases hp : (getObj s c0).can_pause with
    | true =>
      simp only [performStatePush, hreg, hc, hp, if_true]
      exact ⟨_, rfl, by simp, by simp, by simp⟩
    | false =>
      simp only [performStatePush, hreg, hc, hp, Bool.false_eq_true, if_false]
      exact ⟨_, rfl, by simp, by simp, by simp⟩

theorem performStatePush_inv (s s' : SMState) (k : StateType) (d : SData)
    (hs : SMInv s) (h : performStatePush s k d = some s') : SMInv s' := by
  cases hl : lookupA s.states k with
  | none => unfold performStatePush at h; rw [hl] at h; simp at h
  | some i =>
    obtain ⟨s2, hs2, hstack, hcur, hstates⟩ := performStatePush_spec s k d i hl
    rw [hs2, Option.some.injEq] at h
    subst h
    constructor
    · intro j hj
      rw [hstack, List.mem_append] at hj
      rcases hj with hj | hj
      · obtain ⟨p, hp, hpi⟩ := hs.1 j hj
        exact ⟨p, by rw [hstates]; exact hp, hpi⟩
      · simp only [List.mem_singleton] at hj
        subst hj
        obtain ⟨p, hp, hpi⟩ := lookupA_mem s.states k j hl
        exact ⟨p, by rw [hstates]; exact hp, hpi⟩
    · rw [hcur, hstack, List.getLast?_concat]

theorem performStatePop_inv (s : SMState) (hs : SMInv s) :
    SMInv (performStatePop s) := by
  by_cases hlen : s.state_stack.length ≤ 1
  · simp only [performStatePop, hlen, if_true]
    exact hs
  · simp only [performStatePop, hlen, if_false, exitObj_stack]
    cases hg : s.state_stack.getLast? with
    | none => exact hs
    | some c =>
      cases hg2 : s.state_stack.dropLast.getLast? with
      | none =>
        simp only [hg2]
        constructor
        · intro j hj
          simp only [exitObj_stack] at hj
          exact hs.1 j ((List.dropLast_sublist _).subset hj)
        · simp [hg2]
      | some c2 =>
        simp only [hg2]
        constructor
        · intro j hj
          simp only [resumeObj_stack, exitObj_stack] at hj
          exact hs.1 j ((List.dropLast_sublist _).subset hj)
        · simp [hg2]

theorem pop_state_snd_inv (s : SMState) (immediate : Bool) (h : SMInv s) :
    SMInv (pop_state s immediate).2 := by
  by_cases hlen : s.state_stack.length ≤ 1
  · simp only [pop_state, hlen, if_true]
    exact h
  · simp only [pop_state, hlen, if_false]
    cases immediate with
    | true => simp only [if_true]; exact performStatePop_inv s h
    | false =>
      simp only [Bool.false_eq_true, if_false]
      exact SMInv_of_fields _ s rfl rfl rfl h

theorem popN_inv (n : Nat) (s : SMState) (h : SMInv s) : SMInv (popN s n) := by
  induction n generalizing s with
  | zero => exact h
  | succ m ih => exact ih _ (pop_state_snd_inv s true h)

theorem exitAllF_states (n : Nat) (s : SMState) :
    (exitAllF n s).states = s.states := by
  induction n generalizing s with
  | zero => rfl
  | succ m ih =>
    rw [exitAllF]
    cases hg : s.state_stack.getLast? with
    | none => rfl
    | some c => rw [ih]; rfl

/-- A stacked reference whose binding is not the one being rebound stays
registered after a dict overwrite. -/
theorem mem_insertKey_of_bne (l : List (StateType × Nat)) (k : StateType)
    (v : Nat) (p : StateType × Nat) (hp : p ∈ l) (hne : (p.1 == k) = false) :
    p ∈ insertKey l k v := by
  unfold insertKey
  split
  · exact List.mem_map.mpr ⟨p, hp, by rw [hne]; simp⟩
  · exact List.mem_append_left _ hp

theorem mem_eraseKey_of_bne (l : List (StateType × Nat)) (k : StateType)
    (p : StateType × Nat) (hp : p ∈ l) (hne : (p.1 == k) = false) :
    p ∈ eraseKey l k := by
  unfold eraseKey
  refine List.mem_filter.mpr ⟨hp, ?_⟩
  simp only [bne, hne, Bool.not_false]

/-- Safety of a registration rules out that any stacked reference is
bound to the affected kind. -/
theorem bne_of_safe (s : SMState) (k : StateType) (p : StateType × Nat)
    (hp : p ∈ s.states) (hj : p.2 ∈ s.state_stack)
    (hsafe : stackedBinding s k = false) : (p.1 == k) = false := by
  cases hb : p.1 == k with
  | false => rfl
  | true =>
    exfalso
    have htrue : stackedBinding s k = true := by
      unfold stackedBinding
      rw [List.any_eq_true]
      exact ⟨p, hp, by rw [Bool.and_eq_true, hb]; exact ⟨rfl, decide_eq_true hj⟩⟩
    rw [htrue] at hsafe
    cases hsafe

theorem postUpdateCall_inv (s1 : SMState) (h : SMInv s1) :
    SMInv (postUpdateCall s1) := by
  cases hc : s1.current_state with
  | none => simp only [postUpdateCall, hc]; exact h
  | some c =>
    simp only [postUpdateCall, hc]
    by_cases ha : (getObj s1 c).active = true
    · simp only [ha, if_true]
      exact SMInv_of_fields _ s1 rfl rfl (by rw [hc]) h
    · simp only [ha, if_false]
      exact h

theorem register_state_inv (s : SMState) (st : GameState) (hs : SMInv s)
    (hsafe : stackedBinding s st.state_type = false) :
    SMInv (register_state s st) := by
  constructor
  · intro j hj
    simp only [register_state, setObj_stack] at hj
    obtain ⟨p, hp, hpi⟩ := hs.1 j hj
    have hne : (p.1 == st.state_type) = false :=
      bne_of_safe s st.state_type p hp (by rw [hpi]; exact hj) hsafe
    refine ⟨p, ?_, hpi⟩
    simp only [register_state, setObj_states]
    exact mem_insertKey_of_bne s.states st.state_type s.objs.length p hp hne
  · have h2 := hs.2
    simp only [register_state, setObj_stack, setObj_current]
    exact h2

theorem unregister_state_inv (s : SMState) (k : StateType) (hs : SMInv s)
    (hsafe : stackedBinding s k = false) :
    SMInv (unregister_state s k) := by
  cases hl : lookupA s.states k with
  | none => simp only [unregister_state, hl]; exact hs
  | some i =>
    simp only [unregister_state, hl]
    constructor
    · intro j hj
      simp only [cleanupObj_stack] at hj
      obtain ⟨p, hp, hpi⟩ := hs.1 j hj
      have hne : (p.1 == k) = false :=
        bne_of_safe s k p hp (by rw [hpi]; exact hj) hsafe
      exact ⟨p, mem_eraseKey_of_bne s.states k p hp hne, hpi⟩
    · exact hs.2

/-- One safe operation that does not raise preserves the invariant. -/
theorem stepOp_inv (s : SMState) (op : Op) (s' : SMState) (hs : SMInv s)
    (hsafe : safeOpB s op = true) (hstep : stepOp s op = some s') :
    SMInv s' := by
  cases op with
  | register st =>
    simp only [stepOp, Option.some.injEq] at hstep
    subst hstep
    simp only [safeOpB, Bool.not_eq_true'] at hsafe
    exact register_state_inv s st hs hsafe
  | unregister k =>
    simp only [stepOp, Option.some.injEq] at hstep
    subst hstep
    simp only [safeOpB, Bool.not_eq_true'] at hsafe
    exact unregister_state_inv s k hs hsafe
  | change k data imm =>
    simp only [stepOp, change_state] at hstep
    by_cases hn : (lookupA s.states k).isNone
    · simp only [hn, if_true, Option.some.injEq] at hstep
      subst hstep
      exact hs
    · simp only [hn, if_false] at hstep
      cases imm with
      | true =>
        simp only [if_true] at hstep
        exact performStateChange_inv s s' k data hstep
      | false =>
        simp only [Bool.false_eq_true, if_false, Option.some.injEq] at hstep
        subst hstep
        exact SMInv_of_fields _ s rfl rfl rfl hs
  | push k data imm =>
    simp only [stepOp, push_state] at hstep
    by_cases hn : (lookupA s.states k).isNone
    · simp only [hn, if_true, Option.some.injEq] at hstep
      subst hstep
      exact hs
    · simp only [hn, if_false] at hstep
      cases imm with
      | true =>
        simp only [if_true] at hstep
        exact performStatePush_inv s s' k data hs hstep
      | false =>
        simp only [Bool.false_eq_true, if_false, Option.some.injEq] at hstep
        subst hstep
        exact SMInv_of_fields _ s rfl rfl rfl hs
  | pop imm =>
    simp only [stepOp, Option.some.injEq] at hstep
    subst hstep
    exact pop_state_snd_inv s imm hs
  | backTo k data =>
    simp only [stepOp, back_to_state] at hstep
    cases hf : s.state_stack.findIdx? fun i => (getObj s i).state_type == k with
    | none =>
      rw [hf] at hstep
      simp only [Option.some.injEq] at hstep
      subst hstep
      exact hs
    | some idx =>
      rw [hf] at hstep
      simp only [Option.some.injEq] at hstep
      subst hstep
      have hpop : SMInv (popN s (s.state_stack.length - (idx + 1))) :=
        popN_inv _ s hs
      by_cases hd : data.isEmpty
      · simp only [hd, if_true]
        exact hpop
      · simp only [hd, if_false]
        cases hc : (popN s (s.state_stack.length - (idx + 1))).current_state with
        | none => exact hpop
        | some c => exact SMInv_of_fields _ _ rfl rfl rfl hpop
  | clearStack k data =>
    simp only [stepOp, clear_stack] at hstep
    by_cases hn : (lookupA s.states k).isNone
    · simp only [hn, if_true, Option.some.injEq] at hstep
      subst hstep
      exact hs
    · simp only [hn, if_false, change_state, exitAllF_states] at hstep
      simp only [hn, if_false, if_true] at hstep
      exact performStateChange_inv _ s' k data hstep
  | update =>
    cases hp : s.pending with
    | none =>
      simp only [stepOp, updateSM, hp, Option.map_some', Option.some.injEq] at hstep
      subst hstep
      exact postUpdateCall_inv s hs
    | some t =>
      have hs0 : SMInv ({ s with pending := none } : SMState) :=
        SMInv_of_fields _ s rfl rfl rfl hs
      cases t with
      | change k d =>
        simp only [stepOp, updateSM, hp] at hstep
        obtain ⟨s1, hperf, hpost⟩ := Option.map_eq_some'.mp hstep
        exact hpost ▸ postUpdateCall_inv s1 (performStateChange_inv _ s1 k d hperf)
      | push k d =>
        simp only [stepOp, updateSM, hp] at hstep
        obtain ⟨s1, hperf, hpost⟩ := Option.map_eq_some'.mp hstep
        exact hpost ▸ postUpdateCall_inv s1 (performStatePush_inv _ s1 k d hs0 hperf)
      | pop =>
        simp only [stepOp, updateSM, hp, Option.map_some', Option.some.injEq] at hstep
        subst hstep
        exact postUpdateCall_inv _ (performStatePop_inv _ hs0)

/-- C5 (amended): after every sequence of `StateManager` operations that
completes without an uncaught exception and never unregisters or
re-registers a kind whose current binding sits on the stack, every state
referenced by the stack is present in the registry and `current_state`
is the top of the stack (`None` on an empty stack).  The excluded
register/unregister cases genuinely break the registry half of the
invariant (see the counterexample); the `current_state = top` half is
never broken. -/
theorem claimC5_invariant_under_safe_ops (ops : List Op) (s s' : SMState)
    (hs : SMInv s) (hrun : runSafe s ops = some s') : SMInv s' := by
  induction ops generalizing s with
  | nil =>
    simp only [runSafe, Option.some.injEq] at hrun
    subst hrun
    exact hs
  | cons op ops ih =>
    rw [runSafe] at hrun
    by_cases hsafe : safeOpB s op = true
    · rw [if_pos hsafe] at hrun
      cases hst : stepOp s op with
      | none => rw [hst] at hrun; simp at hrun
      | some s1 =>
        rw [hst] at hrun
        exact ih s1 (stepOp_inv s op s1 hs hsafe hst) hrun
    · rw [if_neg hsafe] at hrun
      simp at hrun

/-- Witness for C5 (amended): the empty manager satisfies the invariant,
and running a (failing) pop keeps it. -/
theorem claimC5_invariant_under_safe_ops_witness :
    SMInv initSM ∧ SMInv ((runSafe initSM [Op.pop true]).getD initSM) :=
  ⟨by decide,
    claimC5_invariant_under_safe_ops [Op.pop true] initSM _ (by decide) (by decide)⟩

end Game